import Mathlib

/-!
Verification development for the device-sync utility (mp_remote.py).

The program synchronizes a local directory tree with a microcontroller
filesystem through the external tool mpremote.  We shallowly embed the two
algorithmically interesting operations:

* `uploadPath` — the upload operation (upload_path, lines 59-107): scan a
  directory for candidate files (extension denylist plus modification-time
  comparison against a persisted marker), create the needed remote folders,
  copy the files, and rewrite the marker.

* `listAllFilesFuel` — the recursive remote listing (list_all_files,
  lines 120-158): query the device, parse the semi-structured text output,
  print files grouped per directory, and recurse into subdirectories.
  Recursion depth is made explicit with a fuel parameter; exhausted fuel
  (`none`) models non-termination.

Local file paths are modelled structurally, as the list of path components
relative to the scanned root (what pathlib's relative_to produces); string
parsing of device output is modelled character-for-character on `List Char`,
mirroring the Python string methods used by the code (str.strip, str.split,
str.splitlines, str.rstrip, and pathlib's suffix rule).  Timestamps are
integers; only their ordering matters to the program.  Console printing of
progress messages is not modelled for the upload operation; for the listing
operation the printed lines are the operation's whole output and are
modelled as a list of strings, one per print call.
-/

/-- The set of whitespace characters recognised by Python's str.strip and
str.split with no arguments (ASCII fragment). -/
def pyIsSpace (c : Char) : Bool :=
  c = ' ' || c = '\t' || c = '\n' || c = '\r' || c.toNat = 11 || c.toNat = 12

/-- Python str.strip(): drop whitespace from both ends. -/
def pyStrip (s : String) : String :=
  String.mk ((((s.toList.dropWhile pyIsSpace).reverse).dropWhile pyIsSpace).reverse)

/-- Split a character list at newline characters (Python str.splitlines on
text whose lines are separated by a line feed). -/
def splitNl : List Char → List (List Char)
  | [] => [[]]
  | c :: cs =>
    if c = '\n' then [] :: splitNl cs
    else
      match splitNl cs with
      | [] => [[c]]
      | t :: ts => (c :: t) :: ts

/-- Python output.splitlines() as used on the stripped listing text. -/
def pySplitLines (s : String) : List String :=
  (splitNl s.toList).map String.mk

/-- Python str.split() with no arguments: the maximal runs of
non-whitespace characters. -/
def tokens : List Char → List (List Char)
  | [] => []
  | c :: cs =>
    if pyIsSpace c then tokens cs
    else
      match tokens cs with
      | [] => [[c]]
      | t :: ts =>
        match cs with
        | [] => [[c]]
        | d :: _ => if pyIsSpace d then [c] :: t :: ts else (c :: t) :: ts

/-- Python name.rstrip() with a slash argument: drop trailing slashes. -/
def rstripSlash (s : String) : String :=
  String.mk ((s.toList.reverse.dropWhile (fun c => c = '/')).reverse)

/-- Whether a parsed entry name carries the trailing separator that marks a
directory in the device listing. -/
def endsWithSlash (s : String) : Bool :=
  s.toList.getLast? = some '/'

/-- pathlib PurePath.suffix of a file name: the substring starting at the
last dot, provided that dot is neither the first nor the last character;
otherwise the empty string. -/
def suffixOf (name : String) : String :=
  let cs := name.toList
  match (List.range cs.length).foldl
      (fun acc i => if cs.getD i ' ' = '.' then some i else acc) none with
  | none => ""
  | some i => if 0 < i ∧ i + 1 < cs.length then String.mk (cs.drop i) else ""

/-- IGNORED_SUFFIXES (mp_remote.py lines 12-16), the fixed extension
denylist compared against pathlib's suffix of each scanned file. -/
def ignoredSuffixes : List String :=
  [".txt", ".md", ".pyc", ".log", ".bak", ".bat", ".sh",
   ".ini", ".cfg", ".config", ".DS_Store",
   ".git", ".gitignore", ".gitattributes",
   ".pdf", ".docx", ".xlsx", ".pptx",
   ".zip", ".tar", ".tar.gz", ".rar"]

/-- TIMESTAMP_FILE_NAME (line 10): the marker file persisted at the top
level of the synchronized root. -/
def timestampFileName : String := "last_upload_time.txt"

/-- ESP_ROOT (line 11): the fixed remote root sentinel. -/
def espRoot : String := ":/"

/-- A regular file found by the recursive scan (path.rglob with the
is_file filter, lines 72-74), identified by its path components relative
to the scanned root (last component is the file name) and its
modification time. -/
structure SrcFile where
  parts : List String
  mtime : Int
deriving DecidableEq

/-- The file's name, the last path component (what pathlib's name / suffix
operate on). -/
def fileName (f : SrcFile) : String := f.parts.getLastD ""

/-- relative_to(root).as_posix() of a file, from its components. -/
def relPosix (parts : List String) : String := String.intercalate "/" parts

/-- relative_to(root).parent.as_posix() of a file (line 87): the posix
rendering of the parent, which for a file directly at the root is the
one-character string of a dot (pathlib renders an empty relative path
this way). -/
def parentPosix (parts : List String) : String :=
  match parts.dropLast with
  | [] => "."
  | ps => String.intercalate "/" ps

/-- get_last_upload_time (lines 49-53): the persisted marker value, zero
when the marker file does not exist. -/
def getLastUploadTime (storedMarker : Option Int) : Int :=
  match storedMarker with
  | none => 0
  | some t => t

/-- A device interaction issued over mpremote during an upload: a
directory-creation request or a file-copy request. -/
inductive Req where
  | mkdir (path : String)
  | cp (srcParts : List String) (dst : String)
deriving DecidableEq

/-- Outcome of an upload invocation: fatal process termination with an
exit code, or completion with the ordered list of device requests and the
value newly written to the marker file (`none` = marker untouched). -/
inductive UploadResult where
  | fatal (code : Nat)
  | done (trace : List Req) (newMarker : Option Int)
deriving DecidableEq

/-- Step 1 of upload_path (lines 72-78): the candidate set, in scan order.
A regular file is kept when its pathlib suffix is not in the denylist and
either the force flag is set or its modification time is strictly newer
than the marker. -/
def candidateFiles (files : List SrcFile) (lastUploadTime : Int) (force : Bool) :
    List SrcFile :=
  files.filter (fun f =>
    !(decide (suffixOf (fileName f) ∈ ignoredSuffixes)) &&
    (force || decide (lastUploadTime < f.mtime)))

/-- Keep only distinct elements, in first-occurrence order (the contents of
the Python set folders_to_create, lines 85-89). -/
def dedupAppend (l : List String) : List String :=
  l.foldl (fun acc x => if x ∈ acc then acc else acc ++ [x]) []

/-- Lexicographic code-point comparison of strings (Python string
ordering, as used by sorted). -/
def lexLt : List Char → List Char → Bool
  | [], [] => false
  | [], _ :: _ => true
  | _ :: _, [] => false
  | a :: as, b :: bs =>
    if a.toNat < b.toNat then true
    else if b.toNat < a.toNat then false
    else lexLt as bs

/-- Insert a string into an ascending list, keeping it ascending. -/
def insertSorted (s : String) : List String → List String
  | [] => [s]
  | t :: ts => if lexLt s.toList t.toList then s :: t :: ts else t :: insertSorted s ts

/-- Python sorted() on a list of strings. -/
def sortStrings (l : List String) : List String :=
  l.foldr insertSorted []

/-- Step 2 of upload_path (lines 84-96): one mkdir request per distinct
non-empty relative parent folder, in sorted order, each targeting
ESP_ROOT.rstrip of the slash, then a slash, then the folder. -/
def mkdirReqs (cands : List SrcFile) : List Req :=
  (sortStrings (dedupAppend
      ((cands.map (fun f => parentPosix f.parts)).filter (fun s => s ≠ "")))).map
    (fun d => Req.mkdir (rstripSlash espRoot ++ "/" ++ d))

/-- Step 3 of upload_path (lines 98-103): one cp request per candidate, in
candidate order. -/
def cpReqsOf (cands : List SrcFile) : List Req :=
  cands.map (fun f => Req.cp f.parts (rstripSlash espRoot ++ "/" ++ relPosix f.parts))

/-- upload_path (lines 59-107).  `rootIsDir` models whether the resolved
`--path` argument names an existing directory; `files` is the list of
regular files produced by the recursive scan, in scan order;
`storedMarker` is the content of the marker file (`none` = absent); `now`
is the wall-clock time written at step 4. -/
def uploadPath (rootIsDir : Bool) (files : List SrcFile) (storedMarker : Option Int)
    (now : Int) (force : Bool) : UploadResult :=
  if rootIsDir = false then UploadResult.fatal 1
  else
    let cands := candidateFiles files (getLastUploadTime storedMarker) force
    if cands.isEmpty then UploadResult.done [] none
    else UploadResult.done (mkdirReqs cands ++ cpReqsOf cands) (some now)

/-- The device requests of an upload outcome (none for a fatal exit, which
happens before any device interaction). -/
def uploadTrace : UploadResult → List Req
  | UploadResult.fatal _ => []
  | UploadResult.done t _ => t

/-- The value newly written to the marker file, if any. -/
def newMarkerOf : UploadResult → Option Int
  | UploadResult.fatal _ => none
  | UploadResult.done _ m => m

/-- Whether a request is a file copy. -/
def isCp : Req → Bool
  | Req.cp _ _ => true
  | Req.mkdir _ => false

/-- The file-copy requests of an upload outcome, in order. -/
def cpReqs (r : UploadResult) : List Req :=
  (uploadTrace r).filter isCp

/-- A device, as observed through the listing subcommand: the raw standard
output of the listing request at each path, or `none` when the request
fails (non-zero exit of the external tool). -/
abbrev Dev := String → Option String

/-- run_mpremote with capture_output (lines 19-36) as invoked by the
listing operation: on success the stripped standard output, on failure
sys.exit with status 1 (modelled as an error value carrying the exit
code, raised as SystemExit in the Python program). -/
def lsOutput (dev : Dev) (p : String) : Except Nat String :=
  match dev p with
  | some raw => Except.ok (pyStrip raw)
  | none => Except.error 1

/-- The last whitespace-delimited token of an entry line (lines 138-141),
`none` when the line holds no token. -/
def lastToken (e : String) : Option String :=
  (tokens (pyStrip e).toList).getLast?.map String.mk

/-- The classification loop of list_all_files (lines 136-145): walk the
entry lines in order, taking each line's last token; names with a
trailing slash are collected (slash stripped) as subdirectories, the
rest as files, both in encounter order. -/
def parseEntries : List String → List String × List String
  | [] => ([], [])
  | e :: es =>
    match lastToken e with
    | none => parseEntries es
    | some name =>
      if endsWithSlash name then
        ((parseEntries es).1, rstripSlash name :: (parseEntries es).2)
      else
        (name :: (parseEntries es).1, (parseEntries es).2)

/-- The printed header for a directory (line 148): a leading newline, the
path with trailing slashes removed, and one trailing slash. -/
def dirHeader (base : String) : String :=
  "\n" ++ rstripSlash base ++ "/"

/-- The printed line for a file of the current directory (lines 151-153):
one more space than the length of the stripped directory path, then the
file name. -/
def filePrint (base : String) (f : String) : String :=
  String.mk (List.replicate ((rstripSlash base).length + 1) ' ') ++ f

/-- The path passed to the recursive call for a subdirectory (line 157). -/
def childPath (base d : String) : String :=
  rstripSlash base ++ "/" ++ d

/-- Concatenate the outputs of the recursive calls, propagating fuel
exhaustion. -/
def seqOpt : List (Option (List String)) → Option (List String)
  | [] => some []
  | none :: _ => none
  | some x :: rest =>
    match seqOpt rest with
    | none => none
    | some y => some (x ++ y)

/-- list_all_files (lines 120-158), with explicit fuel bounding the
recursion depth: `none` models a recursion that would not terminate
within the given depth.  A failed listing request is caught (the
SystemExit of lines 123-126) and yields no output for that branch; a
listing of fewer than two stripped lines (header only) likewise yields no
output (lines 128-130); otherwise the directory header is printed, then
one line per immediate file, then the concatenated output of the
recursive calls on the subdirectories in order. -/
def listAllFilesFuel : Nat → Dev → String → Option (List String)
  | 0, _, _ => none
  | Nat.succ n, dev, base =>
    match lsOutput dev base with
    | Except.error _ => some []
    | Except.ok out =>
      if (pySplitLines (pyStrip out)).length < 2 then some []
      else
        match seqOpt (((parseEntries ((pySplitLines (pyStrip out)).drop 1)).2).map
            (fun d => listAllFilesFuel n dev (childPath base d))) with
        | none => none
        | some r =>
          some (dirHeader base ::
            ((parseEntries ((pySplitLines (pyStrip out)).drop 1)).1).map (filePrint base)
            ++ r)

/-- The files and subdirectories the listing operation parses out of the
device's response at a path: empty on a failed request or a header-only
response, otherwise the classification of the entry lines. -/
def dirEntriesOf (dev : Dev) (p : String) : List String × List String :=
  match lsOutput dev p with
  | Except.error _ => ([], [])
  | Except.ok out =>
    if (pySplitLines (pyStrip out)).length < 2 then ([], [])
    else parseEntries ((pySplitLines (pyStrip out)).drop 1)

/-- The subdirectories the listing operation would recurse into at a path. -/
def subdirsOf (dev : Dev) (p : String) : List String :=
  (dirEntriesOf dev p).2

/-- Membership in the candidate set, unfolded. -/
theorem mem_candidateFiles (files : List SrcFile) (T : Int) (force : Bool) (f : SrcFile) :
    f ∈ candidateFiles files T force ↔
      f ∈ files ∧ suffixOf (fileName f) ∉ ignoredSuffixes ∧
        (force = true ∨ T < f.mtime) := by
  simp [candidateFiles, List.mem_filter]

/-- The upload outcome when the candidate set is empty. -/
theorem uploadPath_of_empty (files : List SrcFile) (T now : Int) (force : Bool)
    (h : candidateFiles files T force = []) :
    uploadPath true files (some T) now force = UploadResult.done [] none := by
  simp [uploadPath, getLastUploadTime, h]

/-- The upload outcome when the candidate set is non-empty. -/
theorem uploadPath_of_nonempty (files : List SrcFile) (T now : Int) (force : Bool)
    (h : (candidateFiles files T force).isEmpty = false) :
    uploadPath true files (some T) now force =
      UploadResult.done
        (mkdirReqs (candidateFiles files T force) ++ cpReqsOf (candidateFiles files T force))
        (some now) := by
  simp [uploadPath, getLastUploadTime, h]

/-- Directory-creation requests are never file copies. -/
theorem filter_isCp_mkdirReqs (c : List SrcFile) : (mkdirReqs c).filter isCp = [] := by
  show (List.map _ _).filter isCp = []
  generalize (sortStrings (dedupAppend
    ((c.map (fun f => parentPosix f.parts)).filter (fun s => s ≠ "")))) = l
  induction l with
  | nil => rfl
  | cons a t ih => simp [isCp, ih]

/-- File-copy requests all satisfy the copy predicate. -/
theorem filter_isCp_cpReqsOf (c : List SrcFile) : (cpReqsOf c).filter isCp = cpReqsOf c := by
  show (List.map _ _).filter isCp = _
  induction c with
  | nil => rfl
  | cons a t ih => simp [cpReqsOf, isCp, ih]

/-- C1: with force off, the candidate set (and hence the set of issued
file-copy requests) consists of exactly the scanned regular files, at any
nesting depth, whose modification time is strictly greater than the
persisted marker T and whose extension (pathlib suffix, exactly as the
code computes it) is not in the denylist. -/
theorem upload_selects_exactly_new_nondenylisted (files : List SrcFile) (T now : Int) :
    (∀ f, f ∈ candidateFiles files T false ↔
        f ∈ files ∧ suffixOf (fileName f) ∉ ignoredSuffixes ∧ T < f.mtime) ∧
    cpReqs (uploadPath true files (some T) now false) =
      (candidateFiles files T false).map
        (fun f => Req.cp f.parts (rstripSlash espRoot ++ "/" ++ relPosix f.parts)) := by
  constructor
  · intro f
    rw [mem_candidateFiles]
    simp
  · cases hc : candidateFiles files T false with
    | nil =>
      rw [uploadPath_of_empty files T now false hc]
      rfl
    | cons a t =>
      have hE : (candidateFiles files T false).isEmpty = false := by rw [hc]; rfl
      rw [uploadPath_of_nonempty files T now false hE]
      simp only [cpReqs, uploadTrace, List.filter_append, filter_isCp_mkdirReqs,
        filter_isCp_cpReqsOf, List.nil_append]
      rw [hc]
      rfl

/-- C2 (code bug witness): the denylist contains the entry for tar.gz
archives, yet a file named a.tar.gz has pathlib suffix ".gz", is placed
in the candidate set, and is copied to the device. -/
theorem tar_gz_file_uploaded_despite_denylist :
    ".tar.gz" ∈ ignoredSuffixes ∧ suffixOf "a.tar.gz" = ".gz" ∧
    uploadPath true [SrcFile.mk ["a.tar.gz"] 10] (some 0) 20 false =
      UploadResult.done [Req.mkdir ":/.", Req.cp ["a.tar.gz"] ":/a.tar.gz"] (some 20) :=
  ⟨by decide, by decide, by decide⟩

/-- C3 (code bug witness): with one new file at the root and one in a
subdirectory, the upload issues a directory-creation request for the path
of the root itself (the dot rendering of the root-level file's parent
survives the non-empty-string guard) in addition to the one for the
subdirectory, before the two copies. -/
theorem root_level_candidate_triggers_root_mkdir :
    uploadPath true [SrcFile.mk ["a.py"] 10, SrcFile.mk ["sub", "b.py"] 10]
        (some 0) 20 false =
      UploadResult.done
        [Req.mkdir ":/.", Req.mkdir ":/sub",
         Req.cp ["a.py"] ":/a.py", Req.cp ["sub", "b.py"] ":/sub/b.py"]
        (some 20) := by decide

/-- C4: when the candidate set is empty the upload returns at once: no
device request of any kind is issued and the marker file is left
unchanged. -/
theorem upload_empty_candidates_noop (files : List SrcFile) (T now : Int) (force : Bool)
    (h : candidateFiles files T force = []) :
    uploadPath true files (some T) now force = UploadResult.done [] none :=
  uploadPath_of_empty files T now force h

/-- C4 witness: a root whose only file is older than the marker. -/
theorem upload_empty_candidates_noop_witness :
    candidateFiles [SrcFile.mk ["a.py"] 3] 5 false = [] ∧
    uploadPath true [SrcFile.mk ["a.py"] 3] (some 5) 9 false = UploadResult.done [] none :=
  ⟨by decide, upload_empty_candidates_noop [SrcFile.mk ["a.py"] 3] 5 9 false (by decide)⟩

/-- C5: after an upload with a non-empty candidate set completes, the
marker file holds the current wall-clock time; assuming the clock has
advanced beyond the old marker and beyond every candidate's modification
time, the new marker value is strictly greater than the old one and at
least every uploaded file's modification time. -/
theorem upload_marker_strictly_increases (files : List SrcFile) (T now : Int) (force : Bool)
    (hne : candidateFiles files T force ≠ [])
    (hclk : T < now)
    (hmt : ∀ f ∈ candidateFiles files T force, f.mtime ≤ now) :
    ∃ m, newMarkerOf (uploadPath true files (some T) now force) = some m ∧
      T < m ∧ ∀ f ∈ candidateFiles files T force, f.mtime ≤ m := by
  refine ⟨now, ?_, hclk, hmt⟩
  have hE : (candidateFiles files T force).isEmpty = false := by
    cases hc : candidateFiles files T force with
    | nil => exact absurd hc hne
    | cons a t => rfl
  rw [uploadPath_of_nonempty files T now force hE]
  rfl

/-- C5 witness: one fresh file, old marker 0, clock at 9. -/
theorem upload_marker_strictly_increases_witness :
    candidateFiles [SrcFile.mk ["a.py"] 5] 0 false ≠ [] ∧ (0 : Int) < 9 ∧
    (∀ f ∈ candidateFiles [SrcFile.mk ["a.py"] 5] 0 false, f.mtime ≤ 9) ∧
    ∃ m, newMarkerOf (uploadPath true [SrcFile.mk ["a.py"] 5] (some 0) 9 false) = some m ∧
      (0 : Int) < m ∧ ∀ f ∈ candidateFiles [SrcFile.mk ["a.py"] 5] 0 false, f.mtime ≤ m :=
  ⟨by decide, by decide, by decide,
   upload_marker_strictly_increases [SrcFile.mk ["a.py"] 5] 0 9 false
     (by decide) (by decide) (by decide)⟩

/-- C6: when the root path does not name an existing directory the upload
terminates at once with exit status 1, before any device interaction; the
equation holds for every stored marker value alike, so the marker file is
neither consulted nor modified. -/
theorem upload_missing_root_fatal (files : List SrcFile) (storedMarker : Option Int)
    (now : Int) (force : Bool) :
    uploadPath false files storedMarker now force = UploadResult.fatal 1 := rfl

/-- C10: a file named last_upload_time.txt (the in-tree marker file) is
never in the candidate set and no copy request for it is ever issued,
whatever the force flag and the timestamps: its txt suffix is in the
denylist. -/
theorem marker_file_never_uploaded (files : List SrcFile) (T now : Int) (force : Bool)
    (f : SrcFile) (dst : String) (hf : fileName f = timestampFileName) :
    f ∉ candidateFiles files T force ∧
    Req.cp f.parts dst ∉ uploadTrace (uploadPath true files (some T) now force) := by
  have hsuf : suffixOf timestampFileName ∈ ignoredSuffixes := by decide
  constructor
  · intro hmem
    obtain ⟨-, hns, -⟩ := (mem_candidateFiles files T force f).mp hmem
    rw [hf] at hns
    exact hns hsuf
  · intro hmem
    cases hc : candidateFiles files T force with
    | nil =>
      rw [uploadPath_of_empty files T now force hc] at hmem
      exact List.not_mem_nil _ hmem
    | cons a t =>
      have hE : (candidateFiles files T force).isEmpty = false := by rw [hc]; rfl
      rw [uploadPath_of_nonempty files T now force hE] at hmem
      simp only [uploadTrace, List.mem_append] at hmem
      cases hmem with
      | inl hm =>
        simp only [mkdirReqs, List.mem_map] at hm
        obtain ⟨d, -, hdeq⟩ := hm
        exact Req.noConfusion hdeq
      | inr hm =>
        simp only [cpReqsOf, List.mem_map] at hm
        obtain ⟨g, hg, hgeq⟩ := hm
        have hparts : g.parts = f.parts := by
          injection hgeq
        have hname : fileName g = fileName f := by
          unfold fileName; rw [hparts]
        obtain ⟨-, hns, -⟩ := (mem_candidateFiles files T force g).mp hg
        rw [hname, hf] at hns
        exact hns hsuf

/-- C10 witness: the marker file itself, next to one ordinary file, under
a force upload. -/
theorem marker_file_never_uploaded_witness :
    fileName (SrcFile.mk ["last_upload_time.txt"] 99) = timestampFileName ∧
    (SrcFile.mk ["last_upload_time.txt"] 99) ∉
      candidateFiles [SrcFile.mk ["last_upload_time.txt"] 99, SrcFile.mk ["a.py"] 5] 0 true ∧
    Req.cp ["last_upload_time.txt"] ":/last_upload_time.txt" ∉
      uploadTrace (uploadPath true
        [SrcFile.mk ["last_upload_time.txt"] 99, SrcFile.mk ["a.py"] 5] (some 0) 9 true) :=
  ⟨rfl,
   (marker_file_never_uploaded
      [SrcFile.mk ["last_upload_time.txt"] 99, SrcFile.mk ["a.py"] 5] 0 9 true
      (SrcFile.mk ["last_upload_time.txt"] 99) ":/last_upload_time.txt" rfl).1,
   (marker_file_never_uploaded
      [SrcFile.mk ["last_upload_time.txt"] 99, SrcFile.mk ["a.py"] 5] 0 9 true
      (SrcFile.mk ["last_upload_time.txt"] 99) ":/last_upload_time.txt" rfl).2⟩

/-- A device whose root listing is header-only (an empty directory). -/
def dev0 : Dev := fun p => if p = ":/" then some "ls :/" else none

/-- The synthetic two-level device of the specification: a root holding
one file and one subdirectory, the subdirectory holding one file. -/
def dev8 : Dev := fun p =>
  if p = ":/" then some "ls :/\n 0 sub/\n 100 a.py"
  else if p = ":/sub" then some "ls :/sub\n 50 b.py"
  else none

/-- A two-level device used to exhibit a terminating recursion. -/
def devW : Dev := fun p =>
  if p = ":/" then some "ls :/\n 1 sub/"
  else if p = ":/sub" then some "ls :/sub\n 2 a.py"
  else none

/-- A depth measure for devW: the root is one level above everything else. -/
def muW : String → Nat := fun p => if p = ":/" then 1 else 0

/-- The classification loop, re-expressed through the claim's wording:
each entry line's last whitespace-delimited token, names with a trailing
separator (stripped) as subdirectories, the rest as files, order kept. -/
theorem parseEntries_eq_filter (es : List String) :
    parseEntries es =
      ((es.filterMap lastToken).filter (fun n => !(endsWithSlash n)),
       ((es.filterMap lastToken).filter (fun n => endsWithSlash n)).map rstripSlash) := by
  induction es with
  | nil => rfl
  | cons e t ih =>
    cases hlt : lastToken e with
    | none => simp [parseEntries, hlt, List.filterMap_cons, ih]
    | some name =>
      by_cases hsl : endsWithSlash name = true
      · simp [parseEntries, hlt, hsl, List.filterMap_cons, ih]
      · rw [Bool.not_eq_true] at hsl
        simp [parseEntries, hlt, hsl, List.filterMap_cons, ih]

/-- C7: a listing request that fails for a path is caught: the underlying
invocation terminates with exit status 1 (the SystemExit the code
intercepts), the recursion returns for that path with no printed output,
and the overall operation continues instead of aborting: the branch
contributes the empty output. -/
theorem listing_failure_empty_branch (dev : Dev) (p : String) (fuel : Nat)
    (h : dev p = none) :
    lsOutput dev p = Except.error 1 ∧ listAllFilesFuel (fuel + 1) dev p = some [] := by
  have hls : lsOutput dev p = Except.error 1 := by simp [lsOutput, h]
  refine ⟨hls, ?_⟩
  simp [listAllFilesFuel, hls]

/-- C7 witness: a device on which every listing request fails. -/
theorem listing_failure_empty_branch_witness :
    (fun _ => none : Dev) ":/bad" = none ∧
    lsOutput (fun _ => none : Dev) ":/bad" = Except.error 1 ∧
    listAllFilesFuel 1 (fun _ => none : Dev) ":/bad" = some [] :=
  ⟨rfl, (listing_failure_empty_branch (fun _ => none) ":/bad" 0 rfl).1,
   (listing_failure_empty_branch (fun _ => none) ":/bad" 0 rfl).2⟩

/-- C8 counterexample: on a device whose root listing consists of the
header line alone, the reached root directory produces no output at all —
in particular its directory path line is never printed, against the
claim's unconditional description of the per-directory processing. -/
theorem header_only_listing_prints_nothing :
    dev0 ":/" = some "ls :/" ∧ listAllFilesFuel 2 dev0 ":/" = some [] :=
  ⟨by decide, by decide⟩

/-- C8 (amended): for every directory reached whose raw listing text
holds at least two lines after stripping, the operation discards the
first (header) line, takes each later line's last whitespace-delimited
token as the entry name, treats names with a trailing separator as
subdirectories and the rest as files, prints the directory path and then
one indented line per immediate file, and recurses into the
subdirectories in order (a listing with fewer lines yields no output for
that branch); on the synthetic two-level response the output groups the
root file at top level and then the subdirectory's file indented under
the subdirectory's own header. -/
theorem per_directory_listing_behavior (dev : Dev) (fuel : Nat) (base raw : String)
    (h : dev base = some raw)
    (h2 : ¬ (pySplitLines (pyStrip (pyStrip raw))).length < 2) :
    listAllFilesFuel (fuel + 1) dev base =
      (match seqOpt (((((pySplitLines (pyStrip (pyStrip raw))).drop 1).filterMap
            lastToken).filter (fun n => endsWithSlash n)).map
            (fun d => listAllFilesFuel fuel dev (childPath base (rstripSlash d)))) with
       | none => none
       | some r =>
         some (dirHeader base ::
           ((((pySplitLines (pyStrip (pyStrip raw))).drop 1).filterMap
              lastToken).filter (fun n => !(endsWithSlash n))).map (filePrint base) ++ r)) ∧
    listAllFilesFuel 3 dev8 ":/" = some ["\n:/", "  a.py", "\n:/sub/", "      b.py"] := by
  constructor
  · have hls : lsOutput dev base = Except.ok (pyStrip raw) := by simp [lsOutput, h]
    simp only [listAllFilesFuel, hls]
    rw [if_neg h2]
    rw [parseEntries_eq_filter]
    simp only [List.map_map]
    rfl
  · decide

/-- C8 witness: the amended per-directory description applied to the
synthetic two-level device at its root. -/
theorem per_directory_listing_behavior_witness :
    dev8 ":/" = some "ls :/\n 0 sub/\n 100 a.py" ∧
    ¬ (pySplitLines (pyStrip (pyStrip "ls :/\n 0 sub/\n 100 a.py"))).length < 2 ∧
    listAllFilesFuel 3 dev8 ":/" = some ["\n:/", "  a.py", "\n:/sub/", "      b.py"] :=
  ⟨by decide, by decide,
   (per_directory_listing_behavior dev8 2 ":/" "ls :/\n 0 sub/\n 100 a.py"
      (by decide) (by decide)).2⟩

/-- Sequencing recursion outputs succeeds when every branch does. -/
theorem seqOpt_isSome (l : List (Option (List String))) (h : ∀ x ∈ l, x.isSome) :
    (seqOpt l).isSome := by
  induction l with
  | nil => rfl
  | cons a t ih =>
    have ha := h a (List.mem_cons_self a t)
    have ht := ih (fun y hy => h y (List.mem_cons_of_mem a hy))
    cases a with
    | none => exact absurd ha (by simp)
    | some x =>
      cases hs : seqOpt t with
      | none => rw [hs] at ht; exact absurd ht (by simp)
      | some y => simp [seqOpt, hs]

/-- C9: whenever the device's responses admit a strictly decreasing depth
measure along reported subdirectories (the filesystem is a finite tree,
with no self-referential subdirectory), the listing recursion terminates:
any fuel beyond the root's measure is enough, so the fuel-exhaustion
outcome is never reached. -/
theorem listing_recursion_terminates (dev : Dev) (mu : String → Nat)
    (hmu : ∀ p d, d ∈ subdirsOf dev p → mu (childPath p d) < mu p) :
    ∀ fuel p, mu p < fuel → (listAllFilesFuel fuel dev p).isSome := by
  intro fuel
  induction fuel with
  | zero => intro p hp; exact absurd hp (Nat.not_lt_zero _)
  | succ n ih =>
    intro p hp
    cases hls : lsOutput dev p with
    | error e => simp [listAllFilesFuel, hls]
    | ok out =>
      by_cases hlen : (pySplitLines (pyStrip out)).length < 2
      · simp [listAllFilesFuel, hls, hlen]
      · have hsubs : (parseEntries ((pySplitLines (pyStrip out)).drop 1)).2 =
            subdirsOf dev p := by
          simp [subdirsOf, dirEntriesOf, hls, hlen]
        have hseq : (seqOpt (((parseEntries ((pySplitLines (pyStrip out)).drop 1)).2).map
            (fun d => listAllFilesFuel n dev (childPath p d)))).isSome := by
          apply seqOpt_isSome
          intro x hx
          obtain ⟨d, hd, hdx⟩ := List.mem_map.mp hx
          rw [hsubs] at hd
          have h1 : mu (childPath p d) < mu p := hmu p d hd
          have h2 : mu (childPath p d) < n := lt_of_lt_of_le h1 (Nat.lt_succ_iff.mp hp)
          rw [← hdx]
          exact ih (childPath p d) h2
        simp only [listAllFilesFuel, hls]
        rw [if_neg hlen]
        cases hsq : seqOpt (((parseEntries ((pySplitLines (pyStrip out)).drop 1)).2).map
            (fun d => listAllFilesFuel n dev (childPath p d))) with
        | none => rw [hsq] at hseq; exact absurd hseq (by simp)
        | some r => simp [hsq]

/-- C9 witness: the two-level device devW with the measure muW. -/
theorem listing_recursion_terminates_witness :
    (∀ p d, d ∈ subdirsOf devW p → muW (childPath p d) < muW p) ∧
    muW ":/" < 2 ∧ (listAllFilesFuel 2 devW ":/").isSome := by
  have hmu : ∀ p d, d ∈ subdirsOf devW p → muW (childPath p d) < muW p := by
    intro p d hd
    by_cases h1 : p = ":/"
    · subst h1
      have hs : subdirsOf devW ":/" = ["sub"] := by decide
      rw [hs] at hd
      have hde : d = "sub" := by simpa using hd
      subst hde
      decide
    · by_cases h2 : p = ":/sub"
      · subst h2
        have hs : subdirsOf devW ":/sub" = [] := by decide
        rw [hs] at hd
        exact absurd hd (List.not_mem_nil d)
      · have hnone : devW p = none := by simp [devW, h1, h2]
        have hs : subdirsOf devW p = [] := by
          simp [subdirsOf, dirEntriesOf, lsOutput, hnone]
        rw [hs] at hd
        exact absurd hd (List.not_mem_nil d)
  exact ⟨hmu, by decide, listing_recursion_terminates devW muW hmu 2 ":/" (by decide)⟩
